import Mathlib

/-!
Verification of the pump-go-sdk trade-construction pipeline.

This file gives a shallow embedding of the parts of the repository the
specification's claims are about: the slippage computation
(`applySlippage`), the batched account fetcher (`fetchAccountsBatch`),
the associated-token-account batch check (`ensureATABatchWithBalances`),
the AMM core state fetcher (`fetchAmmCore`), the instruction assembly of
`PumpAmmBuyExactQuoteIn` and `PumpAmmBuyWithSol`, the simulation
balance-delta extraction helpers, the resilient RPC client's retry loop
(`Client.call`), and the vanity keypair search (`vanity.Generate`).

Machine integers (`uint64`) are modelled as `Nat` with explicit
`% 2 ^ 64` where the Go code can overflow.  Remote calls are modelled by
an explicit `RpcState` carrying the node's view of the chain and a
counter of wire calls.  External collaborators that the specification
puts out of scope (binary record decoding, program-derived-address
computation) are taken as function parameters; a concrete reference
decoder (`decodeTokenAmount`) is used for witnesses.
-/

/-- 32-byte Solana public keys, abstracted as natural numbers; the
all-zero key `solana.PublicKey{}` is `0`. -/
abbrev PublicKey := Nat

/-- `constants.TokenProgramID` (the classic SPL token program), as an
abstract distinguished key. -/
def tokenProgramID : PublicKey := 1

/-- `constants.WSOLMint` (the native-asset wrapper mint), as an abstract
distinguished key. -/
def wsolMint : PublicKey := 2

/-- `constants.AssociatedTokenProgramID`, as an abstract distinguished
key. -/
def associatedTokenProgramID : PublicKey := 3

set_option maxRecDepth 8192

/-- The width of the Go `uint64` type. -/
def U64 : Nat := 2 ^ 64

/-- Shallow embedding of `applySlippage` (pkg/autofill/pump_amm.go):

    if slippageBps >= 10_000 { return 0 }
    return amount * (10_000 - slippageBps) / 10_000

The operands are Go `uint64` values, so the product wraps modulo
`2 ^ 64`; the subtraction cannot underflow in the taken branch and the
division cannot overflow. -/
def applySlippage (amount slippageBps : Nat) : Nat :=
  if 10000 ≤ slippageBps then 0
  else amount * (10000 - slippageBps) % U64 / 10000

/-- C1 counterexample: the claim that for every `uint64` amount,
`applySlippage(amount, slippageBps)` equals
`floor(amount * (10000 - slippageBps) / 10000)` over unbounded integers
and is monotonically non-increasing in `slippageBps` fails at
`amount = 2 ^ 63`: the `uint64` product `2 ^ 63 * 10000` wraps to `0`
modulo `2 ^ 64`, so `applySlippage (2 ^ 63) 0 = 0` instead of `2 ^ 63`,
and it is strictly below `applySlippage (2 ^ 63) 1`. -/
theorem applySlippage_overflow_counterex :
    applySlippage (2 ^ 63) 0 ≠ 2 ^ 63 * (10000 - 0) / 10000 ∧
    applySlippage (2 ^ 63) 0 < applySlippage (2 ^ 63) 1 := by
  constructor
  · decide
  · decide

/-- C1 (amended): for every amount with `amount * 10000 < 2 ^ 64` (so no
`uint64` overflow is possible at any slippage value), `applySlippage`
equals the unbounded-integer `floor(amount * (10000 - bps) / 10000)` for
every `bps ≤ 10000`, is monotonically non-increasing in the slippage,
and returns `0` at `bps = 10000`.  For larger amounts the product wraps
modulo `2 ^ 64` (see the counterexample). -/
theorem applySlippage_no_overflow_spec (amount : Nat) (h : amount * 10000 < U64) :
    (∀ bps, bps ≤ 10000 → applySlippage amount bps = amount * (10000 - bps) / 10000) ∧
    (∀ b1 b2, b1 ≤ b2 → applySlippage amount b2 ≤ applySlippage amount b1) ∧
    applySlippage amount 10000 = 0 := by
  have key : ∀ bps : Nat, amount * (10000 - bps) % U64 = amount * (10000 - bps) := by
    intro bps
    apply Nat.mod_eq_of_lt
    calc amount * (10000 - bps) ≤ amount * 10000 :=
          mul_le_mul_left' (by omega) amount
      _ < U64 := h
  refine ⟨?_, ?_, ?_⟩
  · intro bps hb
    by_cases h1 : 10000 ≤ bps
    · have hbe : bps = 10000 := le_antisymm hb h1
      subst hbe
      simp [applySlippage]
    · simp only [applySlippage, if_neg h1, key]
  · intro b1 b2 hb
    by_cases h2 : 10000 ≤ b2
    · simp [applySlippage, if_pos h2]
    · have h1 : ¬ 10000 ≤ b1 := by omega
      simp only [applySlippage, if_neg h1, if_neg h2, key]
      exact Nat.div_le_div_right (mul_le_mul_left' (by omega) amount)
  · simp [applySlippage]

/-- Witness for `applySlippage_no_overflow_spec` at `amount = 950000`
(below the overflow bound). -/
theorem applySlippage_no_overflow_spec_witness :
    950000 * 10000 < U64 ∧
    ((∀ bps, bps ≤ 10000 → applySlippage 950000 bps = 950000 * (10000 - bps) / 10000) ∧
      (∀ b1 b2, b1 ≤ b2 → applySlippage 950000 b2 ≤ applySlippage 950000 b1) ∧
      applySlippage 950000 10000 = 0) :=
  ⟨by decide, applySlippage_no_overflow_spec 950000 (by decide)⟩

/-- An on-chain account snapshot as the RPC returns it
(`solanarpc.Account`): the owning program plus the raw data bytes. -/
structure Account where
  owner : PublicKey
  data : List Nat
deriving DecidableEq

/-- The remote node as seen through the RPC client: the chain content as a
partial map from address to account, plus a counter of
`GetMultipleAccounts` wire calls issued so far. -/
structure RpcState where
  chain : PublicKey → Option Account
  multipleAccountsCalls : Nat

/-- One `GetMultipleAccountsWithOpts` wire call: returns the node's view of
each requested address in order (`nil` entries for missing accounts) and
bumps the wire-call counter. -/
def getMultipleAccounts (s : RpcState) (addrs : List PublicKey) :
    RpcState × List (Option Account) :=
  ({ s with multipleAccountsCalls := s.multipleAccountsCalls + 1 }, addrs.map s.chain)

/-- Builds the result map of `fetchAccountsBatch`: for each `(key, value)`
pair in order, `out[key] = value` is written only when the value is
non-nil, mirroring the Go loop over `res.Value`. -/
def insertFetched : List (PublicKey × Option Account) → (PublicKey → Option Account) →
    (PublicKey → Option Account)
  | [], m => m
  | (_, none) :: rest, m => insertFetched rest m
  | (k, some v) :: rest, m => insertFetched rest (fun a => if a = k then some v else m a)

/-- Shallow embedding of `fetchAccountsBatch` (pkg/autofill/util.go): zero
addresses short-circuits to an empty map without a wire call; otherwise a
single `GetMultipleAccounts` call serves all addresses, and an address
whose account does not exist is simply absent from the result map. -/
def fetchAccountsBatch (s : RpcState) (addrs : List PublicKey) :
    RpcState × (PublicKey → Option Account) :=
  if addrs.isEmpty then (s, fun _ => none)
  else
    let r := getMultipleAccounts s addrs
    (r.1, insertFetched (addrs.zip r.2) (fun _ => none))

theorem insertFetched_zip_map (chain : PublicKey → Option Account) :
    ∀ (addrs : List PublicKey) (m : PublicKey → Option Account) (a : PublicKey),
      insertFetched (addrs.zip (addrs.map chain)) m a =
        if a ∈ addrs ∧ (chain a).isSome then chain a else m a := by
  intro addrs
  induction addrs with
  | nil => intro m a; simp [insertFetched]
  | cons k rest ih =>
    intro m a
    rw [List.map_cons, List.zip_cons_cons]
    cases hc : chain k with
    | none =>
      simp only [insertFetched]
      rw [ih]
      by_cases hak : a = k
      · subst hak
        simp [hc]
      · simp [hak, List.mem_cons]
    | some v =>
      simp only [insertFetched]
      rw [ih]
      by_cases hak : a = k
      · subst hak
        simp [hc]
      · simp [hak, List.mem_cons]

theorem fetchAccountsBatch_lookup (s : RpcState) (addrs : List PublicKey) (a : PublicKey) :
    (fetchAccountsBatch s addrs).2 a = if a ∈ addrs then s.chain a else none := by
  by_cases he : addrs = []
  · subst he
    simp [fetchAccountsBatch]
  · have hne : addrs.isEmpty = false := by
      cases addrs with
      | nil => exact absurd rfl he
      | cons x xs => rfl
    simp only [fetchAccountsBatch, hne, Bool.false_eq_true, if_false, getMultipleAccounts]
    rw [insertFetched_zip_map]
    by_cases hm : a ∈ addrs
    · cases hc : s.chain a with
      | none => simp [hm, hc]
      | some v => simp [hm, hc]
    · simp [hm]

theorem fetchAccountsBatch_chain (s : RpcState) (addrs : List PublicKey) :
    (fetchAccountsBatch s addrs).1.chain = s.chain := by
  by_cases he : addrs.isEmpty
  · simp [fetchAccountsBatch, he]
  · simp [fetchAccountsBatch, he, getMultipleAccounts]

/-- C8: `fetchAccountsBatch` with zero addresses returns an empty map
without issuing a remote call; with at least one address it issues
exactly one `GetMultipleAccounts` remote call regardless of the count;
and an address whose on-chain account does not exist is simply absent
from the returned map rather than causing an error. -/
theorem fetchAccountsBatch_spec (s : RpcState) (addrs : List PublicKey) :
    (addrs = [] →
        (fetchAccountsBatch s addrs).1.multipleAccountsCalls = s.multipleAccountsCalls ∧
        ∀ a, (fetchAccountsBatch s addrs).2 a = none) ∧
    (addrs ≠ [] →
        (fetchAccountsBatch s addrs).1.multipleAccountsCalls = s.multipleAccountsCalls + 1) ∧
    (∀ a, s.chain a = none → (fetchAccountsBatch s addrs).2 a = none) := by
  refine ⟨?_, ?_, ?_⟩
  · intro he
    subst he
    simp [fetchAccountsBatch]
  · intro he
    have hne : addrs.isEmpty = false := by
      cases addrs with
      | nil => exact absurd rfl he
      | cons x xs => rfl
    simp [fetchAccountsBatch, hne, getMultipleAccounts]
  · intro a ha
    rw [fetchAccountsBatch_lookup]
    by_cases hm : a ∈ addrs
    · simp [hm, ha]
    · simp [hm]

/-- A sample chain with a single account at address `5`, used by
witnesses. -/
def sampleChain : PublicKey → Option Account := fun a =>
  if a = 5 then some ⟨tokenProgramID, []⟩ else none

/-- A sample RPC state over `sampleChain` with no calls issued yet. -/
def sampleState : RpcState := ⟨sampleChain, 0⟩

/-- Witness for `fetchAccountsBatch_spec`: the empty batch makes no call,
a two-address batch makes one call, and the missing address `9` is
absent from the result. -/
theorem fetchAccountsBatch_spec_witness :
    ((fetchAccountsBatch sampleState []).1.multipleAccountsCalls = sampleState.multipleAccountsCalls ∧
      ∀ a, (fetchAccountsBatch sampleState []).2 a = none) ∧
    (fetchAccountsBatch sampleState [5, 9]).1.multipleAccountsCalls = sampleState.multipleAccountsCalls + 1 ∧
    (fetchAccountsBatch sampleState [5, 9]).2 9 = none := by
  refine ⟨(fetchAccountsBatch_spec sampleState []).1 rfl,
    (fetchAccountsBatch_spec sampleState [5, 9]).2.1 (by simp),
    (fetchAccountsBatch_spec sampleState [5, 9]).2.2 9 (by decide)⟩

/-- A single ATA ensure request (`ataRequest` in pkg/autofill/util.go);
the derived `ATAAddr` field is computed, not stored. -/
structure AtaRequest where
  payer : PublicKey
  wallet : PublicKey
  mint : PublicKey
  tokenProgram : PublicKey
  ataProgram : PublicKey
deriving DecidableEq

/-- The derived associated token address of a request
(`findATAWithProgram`); `solana.FindProgramAddress` is an external
collaborator, so the derivation function is a parameter. -/
def ataOf (deriveATA : PublicKey → PublicKey → PublicKey → PublicKey → PublicKey)
    (r : AtaRequest) : PublicKey :=
  deriveATA r.wallet r.mint r.tokenProgram r.ataProgram

/-- The instructions the autofill helpers assemble.  The account metas
stay as the named key fields; the opaque byte payloads are external. -/
inductive Instruction where
  /-- The ATA creation instruction built in `ensureATABatchWithBalances`
  (program id plus payer, the ATA, the wallet, the mint and the token
  program metas). -/
  | createATA (ataProgram payer ata wallet mint tokenProgram : PublicKey)
  /-- `system.NewTransferInstruction`; used both for the WSOL wrap top-up
  and for the Jito tip. -/
  | transfer (lamports : Nat) (source destination : PublicKey)
  /-- `token.NewSyncNativeInstruction`. -/
  | syncNative (ata : PublicKey)
  /-- The core `pumpamm.BuildBuyExactQuoteIn` swap instruction carrying
  its args. -/
  | buyExactQuoteIn (spendableQuoteIn minBaseAmountOut : Nat) (trackVolume : Bool)
  /-- `buildCloseAccount` (token CloseAccount, discriminator 9). -/
  | closeAccount (account destination owner tokenProgram : PublicKey)
deriving DecidableEq

/-- The creation instruction `ensureATABatchWithBalances` emits for a
request whose ATA is missing or mismatched. -/
def createATAIx (r : AtaRequest) (ata : PublicKey) : Instruction :=
  .createATA r.ataProgram r.payer ata r.wallet r.mint r.tokenProgram

/-- Result of `ensureATABatchWithBalances`: the creation instructions and
the balance map (a Go map, read back with default 0). -/
structure EnsureATAResult where
  instructions : List Instruction
  balances : PublicKey → Option Nat

/-- A Go map write `m[k] = v`. -/
def setBalance (m : PublicKey → Option Nat) (k : PublicKey) (v : Nat) :
    PublicKey → Option Nat :=
  fun a => if a = k then some v else m a

/-- A Go map read `m[k]`, returning the zero value for an absent key. -/
def mapGetD (m : PublicKey → Option Nat) (k : PublicKey) : Nat := (m k).getD 0

/-- The Go condition `acc != nil && acc.Owner.Equals(req.TokenProgram)`:
the fetched account exists and is owned by the requested token
program. -/
def ataExistsMatching (amap : PublicKey → Option Account)
    (ata tokenProgram : PublicKey) : Bool :=
  match amap ata with
  | some record => record.owner == tokenProgram
  | none => false

/-- The per-request body of the loop in `ensureATABatchWithBalances`:
an existing account with matching owner contributes its decoded balance
(a decode failure or empty data silently leaves the balance entry
absent); otherwise a creation instruction is appended and the balance is
recorded as 0. -/
def ensureStep (decodeTok : List Nat → Option Nat) (amap : PublicKey → Option Account)
    (acc : EnsureATAResult) (r : AtaRequest) (ata : PublicKey) : EnsureATAResult :=
  match amap ata with
  | some record =>
    if record.owner == r.tokenProgram then
      if record.data.isEmpty then acc
      else
        match decodeTok record.data with
        | some amount => { acc with balances := setBalance acc.balances ata amount }
        | none => acc
    else
      { instructions := acc.instructions ++ [createATAIx r ata],
        balances := setBalance acc.balances ata 0 }
  | none =>
      { instructions := acc.instructions ++ [createATAIx r ata],
        balances := setBalance acc.balances ata 0 }

/-- Shallow embedding of `ensureATABatchWithBalances`
(pkg/autofill/util.go): derive every requested ATA, fetch them in one
batch, then walk the requests in order collecting creation instructions
and balances. -/
def ensureATABatchWithBalances (decodeTok : List Nat → Option Nat)
    (deriveATA : PublicKey → PublicKey → PublicKey → PublicKey → PublicKey)
    (s : RpcState) (reqs : List AtaRequest) : RpcState × EnsureATAResult :=
  if reqs.isEmpty then (s, ⟨[], fun _ => none⟩)
  else
    let addrs := reqs.map (ataOf deriveATA)
    let fetched := fetchAccountsBatch s addrs
    (fetched.1,
      reqs.foldl (fun acc r => ensureStep decodeTok fetched.2 acc r (ataOf deriveATA r))
        ⟨[], fun _ => none⟩)

theorem ensureStep_exists (decodeTok : List Nat → Option Nat)
    (amap : PublicKey → Option Account) (acc : EnsureATAResult) (r : AtaRequest)
    (ata : PublicKey) (h : ataExistsMatching amap ata r.tokenProgram = true) :
    (ensureStep decodeTok amap acc r ata).instructions = acc.instructions := by
  unfold ataExistsMatching at h
  cases hm : amap ata with
  | none => rw [hm] at h; cases h
  | some record =>
    rw [hm] at h
    simp only [ensureStep, hm]
    rw [if_pos h]
    by_cases hd : record.data.isEmpty
    · rw [if_pos hd]
    · rw [if_neg hd]
      cases decodeTok record.data <;> rfl

theorem ensureStep_create (decodeTok : List Nat → Option Nat)
    (amap : PublicKey → Option Account) (acc : EnsureATAResult) (r : AtaRequest)
    (ata : PublicKey) (h : ataExistsMatching amap ata r.tokenProgram = false) :
    ensureStep decodeTok amap acc r ata =
      ⟨acc.instructions ++ [createATAIx r ata], setBalance acc.balances ata 0⟩ := by
  unfold ataExistsMatching at h
  cases hm : amap ata with
  | none => simp [ensureStep, hm]
  | some record =>
    rw [hm] at h
    have h2 : (record.owner == r.tokenProgram) = false := h
    simp only [ensureStep, hm]
    rw [if_neg (by simp [h2])]

theorem ensureFold_instructions (decodeTok : List Nat → Option Nat)
    (amap : PublicKey → Option Account)
    (deriveATA : PublicKey → PublicKey → PublicKey → PublicKey → PublicKey) :
    ∀ (reqs : List AtaRequest) (acc : EnsureATAResult),
      (reqs.foldl (fun acc r => ensureStep decodeTok amap acc r (ataOf deriveATA r))
          acc).instructions =
        acc.instructions ++
          (reqs.filter
              (fun r => ! ataExistsMatching amap (ataOf deriveATA r) r.tokenProgram)).map
            (fun r => createATAIx r (ataOf deriveATA r)) := by
  intro reqs
  induction reqs with
  | nil => intro acc; simp
  | cons r rest ih =>
    intro acc
    rw [List.foldl_cons, ih, List.filter_cons]
    by_cases hem : ataExistsMatching amap (ataOf deriveATA r) r.tokenProgram = true
    · rw [ensureStep_exists decodeTok amap acc r (ataOf deriveATA r) hem]
      simp [hem]
    · have hf : ataExistsMatching amap (ataOf deriveATA r) r.tokenProgram = false :=
        Bool.eq_false_iff.mpr hem
      rw [ensureStep_create decodeTok amap acc r (ataOf deriveATA r) hf]
      simp [hf]

/-- Little-endian value of `n` bytes at offset `off` (missing bytes read
as 0). -/
def readLE (data : List Nat) (off n : Nat) : Nat :=
  (List.range n).foldr (fun i acc => acc * 256 + data.getD (off + i) 0) 0

/-- Reference decoder for an SPL token-account record: the fixed
165-byte layout with the `u64` amount at byte offset 64; shorter data
fails to decode.  The repository's binary decoding library is an
external collaborator (declared out of scope by the specification), so
the embedding takes the decoder as a parameter; witnesses instantiate it
with this one. -/
def decodeTokenAmount (data : List Nat) : Option Nat :=
  if 165 ≤ data.length then some (readLE data 64 8) else none

/-- Well-formed 165-byte token-account data holding the given amount. -/
def tokenAccountData (amount : Nat) : List Nat :=
  List.replicate 64 0 ++ (List.range 8).map (fun i => amount / 256 ^ i % 256) ++
    List.replicate 93 0

/-- C4 (amended): in `ensureATABatchWithBalances` a creation instruction
for a request is emitted iff the account fetched at its derived
associated address is absent or owned by a different token program than
requested; in particular no creation instruction is emitted for an
address present with the requested owner, regardless of its balance.
(The claim's form — emitted iff absent, never for a present account with
non-zero balance — fails for a present account under the wrong owner;
see the counterexample.) -/
theorem ensureATA_create_iff (decodeTok : List Nat → Option Nat)
    (deriveATA : PublicKey → PublicKey → PublicKey → PublicKey → PublicKey)
    (s : RpcState) (reqs : List AtaRequest) (r : AtaRequest) (hr : r ∈ reqs) :
    (createATAIx r (ataOf deriveATA r) ∈
        (ensureATABatchWithBalances decodeTok deriveATA s reqs).2.instructions) ↔
      ataExistsMatching s.chain (ataOf deriveATA r) r.tokenProgram = false := by
  have hne : reqs.isEmpty = false := by
    cases reqs with
    | nil => cases hr
    | cons a l => rfl
  have hamap : ∀ r2 ∈ reqs, ∀ tp,
      ataExistsMatching ((fetchAccountsBatch s (reqs.map (ataOf deriveATA))).2)
          (ataOf deriveATA r2) tp =
        ataExistsMatching s.chain (ataOf deriveATA r2) tp := by
    intro r2 h2 tp
    unfold ataExistsMatching
    rw [fetchAccountsBatch_lookup]
    rw [if_pos (List.mem_map_of_mem _ h2)]
  simp only [ensureATABatchWithBalances, hne, Bool.false_eq_true, if_false]
  rw [ensureFold_instructions]
  simp only [List.nil_append]
  constructor
  · intro hmem
    obtain ⟨r2, hr2, heq⟩ := List.mem_map.mp hmem
    have hr2reqs : r2 ∈ reqs := (List.mem_filter.mp hr2).1
    have hp := (List.mem_filter.mp hr2).2
    have hata : ataOf deriveATA r2 = ataOf deriveATA r ∧ r2.tokenProgram = r.tokenProgram := by
      simp only [createATAIx, Instruction.createATA.injEq] at heq
      exact ⟨heq.2.2.1, heq.2.2.2.2.2⟩
    rw [hamap r2 hr2reqs r2.tokenProgram] at hp
    rw [hata.1, hata.2] at hp
    simpa using hp
  · intro hcond
    have hp : (! ataExistsMatching ((fetchAccountsBatch s (reqs.map (ataOf deriveATA))).2)
        (ataOf deriveATA r) r.tokenProgram) = true := by
      rw [hamap r hr r.tokenProgram, hcond]
      rfl
    exact List.mem_map_of_mem _ (List.mem_filter.mpr ⟨hr, hp⟩)

/-- Concrete ATA derivation function for witnesses: an injective pairing
of the request fields. -/
def sampleDerive : PublicKey → PublicKey → PublicKey → PublicKey → PublicKey :=
  fun w m t a => ((w * 1000 + m) * 1000 + t) * 1000 + a

/-- A concrete ATA request used by the C4 material. -/
def c4Req : AtaRequest := ⟨10, 10, 20, tokenProgramID, 30⟩

/-- A chain whose account at the derived ATA of `c4Req` is present with
non-zero balance but owned by program `99`, not the requested token
program. -/
def c4State : RpcState :=
  ⟨fun a => if a = ataOf sampleDerive c4Req then some ⟨99, tokenAccountData 5⟩ else none, 0⟩

/-- C4 counterexample: the requested associated address is present in
the single batched fetch and its account decodes to the non-zero balance
5, yet a creation instruction is emitted, because the account's owner
(99) differs from the requested token program.  This falsifies both the
"iff absent" direction and the "never for a present non-zero-balance
account" part of the claim. -/
theorem ensureATA_wrong_owner_counterex :
    c4State.chain (ataOf sampleDerive c4Req) = some ⟨99, tokenAccountData 5⟩ ∧
    decodeTokenAmount (tokenAccountData 5) = some 5 ∧ (5 : Nat) ≠ 0 ∧
    (ensureATABatchWithBalances decodeTokenAmount sampleDerive c4State [c4Req]).2.instructions
      = [createATAIx c4Req (ataOf sampleDerive c4Req)] := by
  refine ⟨by decide, by decide, by decide, by decide⟩

/-- Witness for `ensureATA_create_iff` at the concrete single-request
batch over `sampleState` (where the derived address is missing). -/
theorem ensureATA_create_iff_witness :
    (createATAIx c4Req (ataOf sampleDerive c4Req) ∈
        (ensureATABatchWithBalances decodeTokenAmount sampleDerive sampleState
            [c4Req]).2.instructions) ↔
      ataExistsMatching sampleState.chain (ataOf sampleDerive c4Req) c4Req.tokenProgram = false :=
  ensureATA_create_iff decodeTokenAmount sampleDerive sampleState [c4Req] c4Req (by decide)

/-- Shallow embedding of `fetchTokenAmountBatch` (pkg/autofill/util.go):
one batched fetch, then for each requested address record the decoded
amount, or 0 when the account is missing, has empty data, or fails to
decode — a decode failure is silently recorded as balance 0, not
surfaced as an error. -/
def fetchTokenAmountBatch (decodeTok : List Nat → Option Nat) (s : RpcState)
    (accounts : List PublicKey) : RpcState × (PublicKey → Option Nat) :=
  if accounts.isEmpty then (s, fun _ => none)
  else
    let fetched := fetchAccountsBatch s accounts
    (fetched.1,
      accounts.foldl
        (fun m addr =>
          match fetched.2 addr with
          | none => setBalance m addr 0
          | some record =>
            if record.data.isEmpty then setBalance m addr 0
            else
              match decodeTok record.data with
              | none => setBalance m addr 0
              | some amount => setBalance m addr amount)
        (fun _ => none))

/-- The decoded `pumpamm.Pool` record fields the resolver uses. -/
structure Pool where
  baseMint : PublicKey
  quoteMint : PublicKey
  poolBaseTokenAccount : PublicKey
  poolQuoteTokenAccount : PublicKey
  coinCreator : PublicKey
deriving DecidableEq

/-- The decoded `pumpamm.GlobalConfig` record fields the resolver uses. -/
structure GlobalConfig where
  protocolFeeRecipients : List PublicKey
deriving DecidableEq

/-- The failure modes of `fetchAmmCore`, one per `return` with an error
in the Go function (pool missing, pool decode failure, global config
missing, global config decode failure). -/
inductive FetchAmmError where
  | poolNotFound (pool : PublicKey)
  | poolDecodeFailed (pool : PublicKey)
  | globalConfigNotFound (globalConfig : PublicKey)
  | globalConfigDecodeFailed (globalConfig : PublicKey)
deriving DecidableEq

/-- `ammCoreResult`: decoded pool and global config state plus the two
token-program selectors. -/
structure AmmCoreResult where
  pool : Pool
  globalConfig : GlobalConfig
  baseTokenProgram : PublicKey
  quoteTokenProgram : PublicKey
deriving DecidableEq

/-- Shallow embedding of `fetchAmmCore` (pkg/autofill/pump_amm.go): one
batched fetch for pool and global config (missing or undecodable records
fail), then a second batched fetch for the two mints.  The token-program
selectors are initialized to the hard-coded `constants.TokenProgramID`
and overwritten with the fetched mint account's owner only when that
mint account is present — a missing mint account is not an error.  The
record decoders are external collaborators passed as parameters. -/
def fetchAmmCore (decodePool : List Nat → Option Pool)
    (decodeGlobal : List Nat → Option GlobalConfig)
    (s : RpcState) (pool globalConfig : PublicKey) :
    RpcState × Except FetchAmmError AmmCoreResult :=
  let fetched := fetchAccountsBatch s [pool, globalConfig]
  match fetched.2 pool with
  | none => (fetched.1, .error (.poolNotFound pool))
  | some poolAcc =>
    match decodePool poolAcc.data with
    | none => (fetched.1, .error (.poolDecodeFailed pool))
    | some p =>
      match fetched.2 globalConfig with
      | none => (fetched.1, .error (.globalConfigNotFound globalConfig))
      | some globalAcc =>
        match decodeGlobal globalAcc.data with
        | none => (fetched.1, .error (.globalConfigDecodeFailed globalConfig))
        | some g =>
          let mintFetch := fetchAccountsBatch fetched.1 [p.baseMint, p.quoteMint]
          let baseTP :=
            match mintFetch.2 p.baseMint with
            | some acc => acc.owner
            | none => tokenProgramID
          let quoteTP :=
            match mintFetch.2 p.quoteMint with
            | some acc => acc.owner
            | none => tokenProgramID
          (mintFetch.1, .ok ⟨p, g, baseTP, quoteTP⟩)

/-- C5 (amended): in `fetchAmmCore`, once the pool and global-config
records are present and decode, resolution always succeeds: a missing
asset mint account does not fail resolution — the token-program selector
silently falls back to the hard-coded default `TokenProgramID` — and
when the mint account is present the selector is its fetched owner.
(The claim that a missing mint fails with a missing-asset error is
falsified by the counterexample below.) -/
theorem fetchAmmCore_selector_spec (decodePool : List Nat → Option Pool)
    (decodeGlobal : List Nat → Option GlobalConfig) (s : RpcState)
    (pool globalConfig : PublicKey) (poolAcc globalAcc : Account)
    (p : Pool) (g : GlobalConfig)
    (hpa : s.chain pool = some poolAcc) (hpd : decodePool poolAcc.data = some p)
    (hga : s.chain globalConfig = some globalAcc)
    (hgd : decodeGlobal globalAcc.data = some g) :
    (fetchAmmCore decodePool decodeGlobal s pool globalConfig).2 =
      .ok ⟨p, g,
        (match s.chain p.baseMint with
          | some acc => acc.owner
          | none => tokenProgramID),
        (match s.chain p.quoteMint with
          | some acc => acc.owner
          | none => tokenProgramID)⟩ := by
  have h1 : (fetchAccountsBatch s [pool, globalConfig]).2 pool = some poolAcc := by
    rw [fetchAccountsBatch_lookup]
    simp [hpa]
  have h2 : (fetchAccountsBatch s [pool, globalConfig]).2 globalConfig = some globalAcc := by
    rw [fetchAccountsBatch_lookup]
    simp [hga]
  have hchain : (fetchAccountsBatch s [pool, globalConfig]).1.chain = s.chain :=
    fetchAccountsBatch_chain s [pool, globalConfig]
  have h3 : (fetchAccountsBatch (fetchAccountsBatch s [pool, globalConfig]).1
      [p.baseMint, p.quoteMint]).2 p.baseMint = s.chain p.baseMint := by
    rw [fetchAccountsBatch_lookup, hchain]
    simp
  have h4 : (fetchAccountsBatch (fetchAccountsBatch s [pool, globalConfig]).1
      [p.baseMint, p.quoteMint]).2 p.quoteMint = s.chain p.quoteMint := by
    rw [fetchAccountsBatch_lookup, hchain]
    simp
  simp only [fetchAmmCore, h1, h2, hpd, hgd, h3, h4]

/-- Decoders for the C5 witness material: address bytes `[1]` decode as
the sample pool, `[2]` as the sample global config. -/
def samplePool : Pool := ⟨200, 201, 210, 211, 0⟩

/-- The sample global config used by the C5 material. -/
def sampleGlobal : GlobalConfig := ⟨[7]⟩

/-- A sample pool-record decoder (external collaborator). -/
def samplePoolDecode : List Nat → Option Pool :=
  fun d => if d = [1] then some samplePool else none

/-- A sample global-config decoder (external collaborator). -/
def sampleGlobalDecode : List Nat → Option GlobalConfig :=
  fun d => if d = [2] then some sampleGlobal else none

/-- A chain holding a decodable pool record at address 100 and a
decodable global config at 101, but no accounts at the mint addresses
200 and 201. -/
def c5State : RpcState :=
  ⟨fun a =>
    if a = 100 then some ⟨50, [1]⟩
    else if a = 101 then some ⟨50, [2]⟩
    else none, 0⟩

/-- C5 counterexample: both mint accounts are missing from the fetched
state, yet `fetchAmmCore` succeeds — it does not fail with a
missing-asset error — and the token-program selectors are the hard-coded
default `TokenProgramID` substituted for the missing mints. -/
theorem fetchAmmCore_missing_mint_counterex :
    c5State.chain samplePool.baseMint = none ∧
    c5State.chain samplePool.quoteMint = none ∧
    (fetchAmmCore samplePoolDecode sampleGlobalDecode c5State 100 101).2 =
      .ok ⟨samplePool, sampleGlobal, tokenProgramID, tokenProgramID⟩ := by
  refine ⟨by decide, by decide, by rfl⟩

/-- Witness for `fetchAmmCore_selector_spec` on the concrete `c5State`. -/
theorem fetchAmmCore_selector_spec_witness :
    (fetchAmmCore samplePoolDecode sampleGlobalDecode c5State 100 101).2 =
      .ok ⟨samplePool, sampleGlobal,
        (match c5State.chain samplePool.baseMint with
          | some acc => acc.owner
          | none => tokenProgramID),
        (match c5State.chain samplePool.quoteMint with
          | some acc => acc.owner
          | none => tokenProgramID)⟩ :=
  fetchAmmCore_selector_spec samplePoolDecode sampleGlobalDecode c5State 100 101
    ⟨50, [1]⟩ ⟨50, [2]⟩ samplePool sampleGlobal (by decide) (by decide) (by decide) (by decide)

/-- C6 (amended): a present-but-undecodable record is a hard
data-integrity error only at the pool/global-config decode sites of
`fetchAmmCore`; at the token-account balance decode sites the failure is
silently swallowed instead — `fetchTokenAmountBatch` records balance 0
and `ensureATABatchWithBalances` leaves the balance entry absent (read
back as 0) while still treating the account as existing (no creation
instruction) — contrary to the claim that every decode site surfaces a
data-integrity error (see the counterexample). -/
theorem decode_failure_spec (decodePool : List Nat → Option Pool)
    (decodeGlobal : List Nat → Option GlobalConfig) (decodeTok : List Nat → Option Nat)
    (deriveATA : PublicKey → PublicKey → PublicKey → PublicKey → PublicKey)
    (s : RpcState) :
    (∀ pool gc pa, s.chain pool = some pa → decodePool pa.data = none →
        (fetchAmmCore decodePool decodeGlobal s pool gc).2 =
          .error (.poolDecodeFailed pool)) ∧
    (∀ pool gc pa p ga, s.chain pool = some pa → decodePool pa.data = some p →
        s.chain gc = some ga → decodeGlobal ga.data = none →
        (fetchAmmCore decodePool decodeGlobal s pool gc).2 =
          .error (.globalConfigDecodeFailed gc)) ∧
    (∀ addr record, s.chain addr = some record → record.data ≠ [] →
        decodeTok record.data = none →
        (fetchTokenAmountBatch decodeTok s [addr]).2 addr = some 0) ∧
    (∀ r record, s.chain (ataOf deriveATA r) = some record →
        record.owner = r.tokenProgram → record.data ≠ [] → decodeTok record.data = none →
        (ensureATABatchWithBalances decodeTok deriveATA s [r]).2.instructions = [] ∧
        (ensureATABatchWithBalances decodeTok deriveATA s [r]).2.balances
            (ataOf deriveATA r) = none) := by
  refine ⟨?_, ?_, ?_, ?_⟩
  · intro pool gc pa hpa hpd
    have h1 : (fetchAccountsBatch s [pool, gc]).2 pool = some pa := by
      rw [fetchAccountsBatch_lookup]
      simp [hpa]
    simp only [fetchAmmCore, h1, hpd]
  · intro pool gc pa p ga hpa hpd hga hgd
    have h1 : (fetchAccountsBatch s [pool, gc]).2 pool = some pa := by
      rw [fetchAccountsBatch_lookup]
      simp [hpa]
    have h2 : (fetchAccountsBatch s [pool, gc]).2 gc = some ga := by
      rw [fetchAccountsBatch_lookup]
      simp [hga]
    simp only [fetchAmmCore, h1, hpd, h2, hgd]
  · intro addr record hrec hdata hdec
    have hemp : record.data.isEmpty = false := by
      cases hd : record.data with
      | nil => exact absurd hd hdata
      | cons x xs => rfl
    have hmap : (fetchAccountsBatch s [addr]).2 addr = some record := by
      rw [fetchAccountsBatch_lookup]
      simp [hrec]
    simp only [fetchTokenAmountBatch, List.isEmpty_cons, Bool.false_eq_true, if_false,
      List.foldl_cons, List.foldl_nil, hmap]
    rw [if_neg (show ¬ (record.data.isEmpty = true) by simp [hemp])]
    rw [hdec]
    simp [setBalance]
  · intro r record hrec hown hdata hdec
    have hemp : record.data.isEmpty = false := by
      cases hd : record.data with
      | nil => exact absurd hd hdata
      | cons x xs => rfl
    have hmap : (fetchAccountsBatch s [ataOf deriveATA r]).2 (ataOf deriveATA r)
        = some record := by
      rw [fetchAccountsBatch_lookup]
      simp [hrec]
    have hstep : ensureStep decodeTok (fetchAccountsBatch s [ataOf deriveATA r]).2
        ⟨[], fun _ => none⟩ r (ataOf deriveATA r) = ⟨[], fun _ => none⟩ := by
      simp only [ensureStep, hmap]
      rw [if_pos (show (record.owner == r.tokenProgram) = true by simp [hown])]
      rw [if_neg (show ¬ (record.data.isEmpty = true) by simp [hemp])]
      rw [hdec]
    have hres : (ensureATABatchWithBalances decodeTok deriveATA s [r]).2
        = ⟨[], fun _ => none⟩ := by
      simp only [ensureATABatchWithBalances, List.isEmpty_cons, Bool.false_eq_true, if_false,
        List.map_cons, List.map_nil, List.foldl_cons, List.foldl_nil]
      exact hstep
    exact ⟨by rw [hres], by rw [hres]⟩

/-- A chain with a token account at 300 whose single byte of data cannot
decode as a token-account record. -/
def c6State : RpcState :=
  ⟨fun a => if a = 300 then some ⟨tokenProgramID, [1]⟩ else none, 0⟩

/-- C6 counterexample: the account at 300 is present but its bytes fail
to decode into a token-account record; `fetchTokenAmountBatch` returns
normally with balance 0 for it — the decode failure is treated as zero
balance, not surfaced as a data-integrity error. -/
theorem tokenDecode_swallowed_counterex :
    c6State.chain 300 = some ⟨tokenProgramID, [1]⟩ ∧
    decodeTokenAmount [1] = none ∧
    (fetchTokenAmountBatch decodeTokenAmount c6State [300]).2 300 = some 0 := by
  refine ⟨by decide, by decide, by decide⟩

/-- A pool decoder that rejects every byte blob, exercising the
decode-failure path. -/
def poolBadDecode : List Nat → Option Pool := fun _ => none

/-- An ATA request whose derived address holds a matching-owner account
with undecodable data in `c6AtaState`. -/
def c6Req : AtaRequest := ⟨11, 11, 21, tokenProgramID, 31⟩

/-- The chain for the ensure-ATA decode-failure witness. -/
def c6AtaState : RpcState :=
  ⟨fun a => if a = ataOf sampleDerive c6Req then some ⟨tokenProgramID, [1]⟩ else none, 0⟩

/-- Witness for `decode_failure_spec` on concrete states: a pool decode
failure surfaces the pool decode error, and a token-balance decode
failure yields balance 0 and no creation instruction. -/
theorem decode_failure_spec_witness :
    (fetchAmmCore poolBadDecode sampleGlobalDecode c5State 100 101).2 =
      .error (.poolDecodeFailed 100) ∧
    (fetchTokenAmountBatch decodeTokenAmount c6State [300]).2 300 = some 0 ∧
    (ensureATABatchWithBalances decodeTokenAmount sampleDerive c6AtaState
        [c6Req]).2.instructions = [] := by
  refine ⟨(decode_failure_spec poolBadDecode sampleGlobalDecode decodeTokenAmount
      sampleDerive c5State).1 100 101 ⟨50, [1]⟩ (by decide) (by decide),
    (decode_failure_spec samplePoolDecode sampleGlobalDecode decodeTokenAmount
      sampleDerive c6State).2.2.1 300 ⟨tokenProgramID, [1]⟩ (by decide) (by decide) (by decide),
    ((decode_failure_spec samplePoolDecode sampleGlobalDecode decodeTokenAmount
      sampleDerive c6AtaState).2.2.2 c6Req ⟨tokenProgramID, [1]⟩ (by decide) (by decide)
      (by decide) (by decide)).1⟩

/-- The account fields of `pumpamm.BuyExactQuoteInAccounts` that the
instruction assembly of the buy helpers reads (the remaining account
fields only flow into the external instruction encoder). -/
structure BuyExactAccounts where
  user : PublicKey
  baseMint : PublicKey
  quoteMint : PublicKey
  userBaseTokenAccount : PublicKey
  userQuoteTokenAccount : PublicKey
  baseTokenProgram : PublicKey
  quoteTokenProgram : PublicKey
  protocolFeeRecipient : PublicKey
  coinCreatorVaultAuthority : PublicKey
deriving DecidableEq

/-- The `autofill.Options` fields that influence the assembled
instruction list. -/
structure AutofillOptions where
  trackVolume : Bool
  jitoTipLamports : Nat
  jitoTipAccount : PublicKey
deriving DecidableEq

/-- `isWSOL` (pkg/autofill/pump_amm.go): the quote asset is the native
wrapper under the classic token program. -/
def isWSOL (mint tokenProgram : PublicKey) : Bool :=
  mint == wsolMint && tokenProgram == tokenProgramID

/-- `buildWrapWSOL` (pkg/autofill/util.go): a transfer of `lamports` to
the WSOL ATA followed by a sync-native; nothing when `lamports` is 0. -/
def buildWrapWSOL (payer wsolATA : PublicKey) (lamports : Nat) : List Instruction :=
  if lamports = 0 then []
  else [.transfer lamports payer wsolATA, .syncNative wsolATA]

/-- `buildCloseAccount` (pkg/autofill/util.go). -/
def buildCloseAccount (account destination owner tokenProgram : PublicKey) : Instruction :=
  .closeAccount account destination owner tokenProgram

/-- `appendJitoTip` (pkg/autofill/pump_amm.go): appends a tip transfer
only when a non-zero tip amount was requested and a tip account is
configured. -/
def appendJitoTip (instrs : List Instruction) (fromKey : PublicKey)
    (options : AutofillOptions) : List Instruction :=
  if options.jitoTipLamports = 0 then instrs
  else if options.jitoTipAccount = 0 then instrs
  else instrs ++ [.transfer options.jitoTipLamports fromKey options.jitoTipAccount]

/-- The four ATA ensure requests built by `PumpAmmBuyWithSol` and
`PumpAmmBuyExactQuoteIn` (user base ATA, user quote ATA, protocol fee
recipient quote ATA, coin-creator vault quote ATA). -/
def ammBuyAtaRequests (a : BuyExactAccounts) : List AtaRequest :=
  [⟨a.user, a.user, a.baseMint, a.baseTokenProgram, associatedTokenProgramID⟩,
   ⟨a.user, a.user, a.quoteMint, a.quoteTokenProgram, associatedTokenProgramID⟩,
   ⟨a.user, a.protocolFeeRecipient, a.quoteMint, a.quoteTokenProgram, associatedTokenProgramID⟩,
   ⟨a.user, a.coinCreatorVaultAuthority, a.quoteMint, a.quoteTokenProgram,
     associatedTokenProgramID⟩]

/-- Shallow embedding of the instruction assembly of
`PumpAmmBuyExactQuoteIn` (pkg/autofill/pump_amm.go) after validation and
account autofill: ATA creation instructions, then — when the quote is
WSOL and the intended spend exceeds the wrapped balance learned from the
batch — a wrap pair topping up only the difference, then the swap
instruction, then an unwrap when the received base asset is WSOL, then
the optional tip. -/
def pumpAmmBuyExactQuoteIn (decodeTok : List Nat → Option Nat)
    (deriveATA : PublicKey → PublicKey → PublicKey → PublicKey → PublicKey)
    (s : RpcState) (accts : BuyExactAccounts) (quoteLamports minBaseOut : Nat)
    (options : AutofillOptions) : List Instruction :=
  let ataResult := (ensureATABatchWithBalances decodeTok deriveATA s
    (ammBuyAtaRequests accts)).2
  let instrs := ataResult.instructions
  let instrs :=
    if isWSOL accts.quoteMint accts.quoteTokenProgram ∧ 0 < quoteLamports then
      let existing := mapGetD ataResult.balances accts.userQuoteTokenAccount
      if existing < quoteLamports then
        instrs ++ buildWrapWSOL accts.user accts.userQuoteTokenAccount
          (quoteLamports - existing)
      else instrs
    else instrs
  let instrs := instrs ++ [.buyExactQuoteIn quoteLamports minBaseOut options.trackVolume]
  let instrs :=
    if accts.baseMint = wsolMint then
      instrs ++ [buildCloseAccount accts.userBaseTokenAccount accts.user accts.user
        accts.baseTokenProgram]
    else instrs
  appendJitoTip instrs accts.user options

/-- Shallow embedding of the instruction assembly of `PumpAmmBuyWithSol`
(pkg/autofill/pump_amm.go) after validation and account autofill.  The
simulated base output `baseOutSim` is the value the remote simulation
returned (an oracle input here); the final swap instruction carries the
slippage-adjusted minimum. -/
def pumpAmmBuyWithSol (decodeTok : List Nat → Option Nat)
    (deriveATA : PublicKey → PublicKey → PublicKey → PublicKey → PublicKey)
    (s : RpcState) (accts : BuyExactAccounts)
    (quoteLamports slippageBps baseOutSim : Nat)
    (options : AutofillOptions) : List Instruction :=
  let ataResult := (ensureATABatchWithBalances decodeTok deriveATA s
    (ammBuyAtaRequests accts)).2
  let instrs := ataResult.instructions
  let existingQuote := mapGetD ataResult.balances accts.userQuoteTokenAccount
  let instrs :=
    if isWSOL accts.quoteMint accts.quoteTokenProgram ∧ existingQuote < quoteLamports then
      instrs ++ buildWrapWSOL accts.user accts.userQuoteTokenAccount
        (quoteLamports - existingQuote)
    else instrs
  let minBaseOut := applySlippage baseOutSim slippageBps
  let instrs := instrs ++ [.buyExactQuoteIn quoteLamports minBaseOut options.trackVolume]
  let instrs :=
    if accts.baseMint = wsolMint then
      instrs ++ [buildCloseAccount accts.userBaseTokenAccount accts.user accts.user
        accts.baseTokenProgram]
    else instrs
  appendJitoTip instrs accts.user options

/-- Observable: is this the ATA creation instruction? -/
def isCreateIx : Instruction → Bool
  | .createATA _ _ _ _ _ _ => true
  | _ => false

/-- Observable: is this the sync-native half of a wrap pair? -/
def isSyncNativeIx : Instruction → Bool
  | .syncNative _ => true
  | _ => false

/-- Observable: is this the core swap instruction? -/
def isSwapIx : Instruction → Bool
  | .buyExactQuoteIn _ _ _ => true
  | _ => false

theorem ensureATA_all_create (decodeTok : List Nat → Option Nat)
    (deriveATA : PublicKey → PublicKey → PublicKey → PublicKey → PublicKey)
    (s : RpcState) (reqs : List AtaRequest) :
    ∀ ix ∈ (ensureATABatchWithBalances decodeTok deriveATA s reqs).2.instructions,
      isCreateIx ix = true := by
  intro ix hix
  by_cases hne : reqs.isEmpty = true
  · simp only [ensureATABatchWithBalances, hne, if_true] at hix
    cases hix
  · have hne2 : reqs.isEmpty = false := Bool.eq_false_iff.mpr hne
    simp only [ensureATABatchWithBalances, hne2, Bool.false_eq_true, if_false] at hix
    rw [ensureFold_instructions] at hix
    simp only [List.nil_append] at hix
    obtain ⟨r2, _, heq⟩ := List.mem_map.mp hix
    rw [← heq]
    rfl

theorem appendJitoTip_eq (instrs : List Instruction) (fromKey : PublicKey)
    (options : AutofillOptions) :
    appendJitoTip instrs fromKey options = instrs ++
      (if options.jitoTipLamports = 0 then []
       else if options.jitoTipAccount = 0 then []
       else [.transfer options.jitoTipLamports fromKey options.jitoTipAccount]) := by
  unfold appendJitoTip
  by_cases h1 : options.jitoTipLamports = 0
  · simp [h1]
  · by_cases h2 : options.jitoTipAccount = 0
    · simp [h1, h2]
    · simp [h1, h2]

theorem pumpAmmBuyWithSol_decomp (decodeTok : List Nat → Option Nat)
    (deriveATA : PublicKey → PublicKey → PublicKey → PublicKey → PublicKey)
    (s : RpcState) (accts : BuyExactAccounts)
    (quoteLamports slippageBps baseOutSim : Nat) (options : AutofillOptions) :
    pumpAmmBuyWithSol decodeTok deriveATA s accts quoteLamports slippageBps baseOutSim
        options =
      (ensureATABatchWithBalances decodeTok deriveATA s
          (ammBuyAtaRequests accts)).2.instructions ++
        (if isWSOL accts.quoteMint accts.quoteTokenProgram ∧
            mapGetD (ensureATABatchWithBalances decodeTok deriveATA s
                (ammBuyAtaRequests accts)).2.balances accts.userQuoteTokenAccount
              < quoteLamports then
          [.transfer
              (quoteLamports -
                mapGetD (ensureATABatchWithBalances decodeTok deriveATA s
                    (ammBuyAtaRequests accts)).2.balances accts.userQuoteTokenAccount)
              accts.user accts.userQuoteTokenAccount,
            .syncNative accts.userQuoteTokenAccount]
        else []) ++
        [.buyExactQuoteIn quoteLamports (applySlippage baseOutSim slippageBps)
          options.trackVolume] ++
        (if accts.baseMint = wsolMint then
          [.closeAccount accts.userBaseTokenAccount accts.user accts.user
            accts.baseTokenProgram]
        else []) ++
        (if options.jitoTipLamports = 0 then []
         else if options.jitoTipAccount = 0 then []
         else [.transfer options.jitoTipLamports accts.user options.jitoTipAccount]) := by
  unfold pumpAmmBuyWithSol
  rw [appendJitoTip_eq]
  by_cases hw : isWSOL accts.quoteMint accts.quoteTokenProgram ∧
      mapGetD (ensureATABatchWithBalances decodeTok deriveATA s
          (ammBuyAtaRequests accts)).2.balances accts.userQuoteTokenAccount < quoteLamports
  · have hnz : quoteLamports -
        mapGetD (ensureATABatchWithBalances decodeTok deriveATA s
            (ammBuyAtaRequests accts)).2.balances accts.userQuoteTokenAccount ≠ 0 := by
      omega
    rw [if_pos hw, if_pos hw]
    unfold buildWrapWSOL
    rw [if_neg hnz]
    by_cases hb : accts.baseMint = wsolMint
    · rw [if_pos hb, if_pos hb]
      simp [buildCloseAccount, List.append_assoc]
    · rw [if_neg hb, if_neg hb]
      simp [List.append_assoc]
  · rw [if_neg hw, if_neg hw]
    by_cases hb : accts.baseMint = wsolMint
    · rw [if_pos hb, if_pos hb]
      simp [buildCloseAccount, List.append_assoc]
    · rw [if_neg hb, if_neg hb]
      simp [List.append_assoc]

theorem pumpAmmBuyExactQuoteIn_decomp (decodeTok : List Nat → Option Nat)
    (deriveATA : PublicKey → PublicKey → PublicKey → PublicKey → PublicKey)
    (s : RpcState) (accts : BuyExactAccounts)
    (quoteLamports minBaseOut : Nat) (options : AutofillOptions) :
    pumpAmmBuyExactQuoteIn decodeTok deriveATA s accts quoteLamports minBaseOut options =
      (ensureATABatchWithBalances decodeTok deriveATA s
          (ammBuyAtaRequests accts)).2.instructions ++
        (if (isWSOL accts.quoteMint accts.quoteTokenProgram ∧ 0 < quoteLamports) ∧
            mapGetD (ensureATABatchWithBalances decodeTok deriveATA s
                (ammBuyAtaRequests accts)).2.balances accts.userQuoteTokenAccount
              < quoteLamports then
          [.transfer
              (quoteLamports -
                mapGetD (ensureATABatchWithBalances decodeTok deriveATA s
                    (ammBuyAtaRequests accts)).2.balances accts.userQuoteTokenAccount)
              accts.user accts.userQuoteTokenAccount,
            .syncNative accts.userQuoteTokenAccount]
        else []) ++
        [.buyExactQuoteIn quoteLamports minBaseOut options.trackVolume] ++
        (if accts.baseMint = wsolMint then
          [.closeAccount accts.userBaseTokenAccount accts.user accts.user
            accts.baseTokenProgram]
        else []) ++
        (if options.jitoTipLamports = 0 then []
         else if options.jitoTipAccount = 0 then []
         else [.transfer options.jitoTipLamports accts.user options.jitoTipAccount]) := by
  unfold pumpAmmBuyExactQuoteIn
  rw [appendJitoTip_eq]
  by_cases hw : isWSOL accts.quoteMint accts.quoteTokenProgram = true ∧ 0 < quoteLamports
  · by_cases hlt : mapGetD (ensureATABatchWithBalances decodeTok deriveATA s
        (ammBuyAtaRequests accts)).2.balances accts.userQuoteTokenAccount < quoteLamports
    · by_cases hb : accts.baseMint = wsolMint
      · simp [hw, hlt, Nat.sub_ne_zero_of_lt hlt, hb, buildWrapWSOL, buildCloseAccount,
          List.append_assoc]
      · simp [hw, hlt, Nat.sub_ne_zero_of_lt hlt, hb, buildWrapWSOL, buildCloseAccount,
          List.append_assoc]
    · by_cases hb : accts.baseMint = wsolMint
      · simp [hw, hlt, hb, buildCloseAccount, List.append_assoc]
      · simp [hw, hlt, hb, buildCloseAccount, List.append_assoc]
  · by_cases hb : accts.baseMint = wsolMint
    · simp [hw, hb, buildCloseAccount, List.append_assoc]
    · simp [hw, hb, buildCloseAccount, List.append_assoc]

/-- C9: every successful `PumpAmmBuyWithSol` build returns the fixed
instruction order [ATA creation instructions, optional WSOL wrap top-up
pair, core swap instruction, optional unwrap (close-account) when the
received base asset is the native wrapper, optional tip transfer last];
the ATA section consists only of creation instructions, the core swap
instruction occurs exactly once, and when no tip was requested
(`jitoTipLamports = 0`) nothing follows the unwrap section. -/
theorem buyWithSol_order_spec (decodeTok : List Nat → Option Nat)
    (deriveATA : PublicKey → PublicKey → PublicKey → PublicKey → PublicKey)
    (s : RpcState) (accts : BuyExactAccounts)
    (quoteLamports slippageBps baseOutSim : Nat) (options : AutofillOptions) :
    pumpAmmBuyWithSol decodeTok deriveATA s accts quoteLamports slippageBps baseOutSim
        options =
      (ensureATABatchWithBalances decodeTok deriveATA s
          (ammBuyAtaRequests accts)).2.instructions ++
        (if isWSOL accts.quoteMint accts.quoteTokenProgram ∧
            mapGetD (ensureATABatchWithBalances decodeTok deriveATA s
                (ammBuyAtaRequests accts)).2.balances accts.userQuoteTokenAccount
              < quoteLamports then
          [.transfer
              (quoteLamports -
                mapGetD (ensureATABatchWithBalances decodeTok deriveATA s
                    (ammBuyAtaRequests accts)).2.balances accts.userQuoteTokenAccount)
              accts.user accts.userQuoteTokenAccount,
            .syncNative accts.userQuoteTokenAccount]
        else []) ++
        [.buyExactQuoteIn quoteLamports (applySlippage baseOutSim slippageBps)
          options.trackVolume] ++
        (if accts.baseMint = wsolMint then
          [.closeAccount accts.userBaseTokenAccount accts.user accts.user
            accts.baseTokenProgram]
        else []) ++
        (if options.jitoTipLamports = 0 then []
         else if options.jitoTipAccount = 0 then []
         else [.transfer options.jitoTipLamports accts.user options.jitoTipAccount]) ∧
    (∀ ix ∈ (ensureATABatchWithBalances decodeTok deriveATA s
        (ammBuyAtaRequests accts)).2.instructions, isCreateIx ix = true) ∧
    (pumpAmmBuyWithSol decodeTok deriveATA s accts quoteLamports slippageBps baseOutSim
        options).countP isSwapIx = 1 ∧
    (options.jitoTipLamports = 0 →
      pumpAmmBuyWithSol decodeTok deriveATA s accts quoteLamports slippageBps baseOutSim
          options =
        (ensureATABatchWithBalances decodeTok deriveATA s
            (ammBuyAtaRequests accts)).2.instructions ++
          (if isWSOL accts.quoteMint accts.quoteTokenProgram ∧
              mapGetD (ensureATABatchWithBalances decodeTok deriveATA s
                  (ammBuyAtaRequests accts)).2.balances accts.userQuoteTokenAccount
                < quoteLamports then
            [.transfer
                (quoteLamports -
                  mapGetD (ensureATABatchWithBalances decodeTok deriveATA s
                      (ammBuyAtaRequests accts)).2.balances accts.userQuoteTokenAccount)
                accts.user accts.userQuoteTokenAccount,
              .syncNative accts.userQuoteTokenAccount]
          else []) ++
          [.buyExactQuoteIn quoteLamports (applySlippage baseOutSim slippageBps)
            options.trackVolume] ++
          (if accts.baseMint = wsolMint then
            [.closeAccount accts.userBaseTokenAccount accts.user accts.user
              accts.baseTokenProgram]
          else [])) := by
  have hEq := pumpAmmBuyWithSol_decomp decodeTok deriveATA s accts quoteLamports
    slippageBps baseOutSim options
  have h0 : List.countP isSwapIx (ensureATABatchWithBalances decodeTok deriveATA s
      (ammBuyAtaRequests accts)).2.instructions = 0 := by
    rw [List.countP_eq_zero]
    intro ix hix
    have hcr := ensureATA_all_create decodeTok deriveATA s (ammBuyAtaRequests accts) ix hix
    cases ix <;> simp_all [isCreateIx, isSwapIx]
  refine ⟨hEq, ensureATA_all_create decodeTok deriveATA s (ammBuyAtaRequests accts),
    ?_, ?_⟩
  · rw [hEq]
    simp only [List.countP_append, h0]
    simp [apply_ite (List.countP isSwapIx), List.countP_cons, List.countP_nil, isSwapIx]
  · intro htip
    rw [hEq]
    simp [htip]

/-- The derived user quote ATA of `sampleAccts` under `sampleDerive`. -/
def sampleQuoteATA : PublicKey :=
  ataOf sampleDerive ⟨40, 40, wsolMint, tokenProgramID, associatedTokenProgramID⟩

/-- Concrete autofilled accounts for witnesses: the quote side is WSOL
under the classic token program, and the user quote token account is the
ATA derived by `sampleDerive`, as the autofill stage guarantees. -/
def sampleAccts : BuyExactAccounts :=
  ⟨40, 20, wsolMint, 41, sampleQuoteATA, tokenProgramID, tokenProgramID, 43, 44⟩

/-- Options with volume tracking on and no tip requested. -/
def sampleOptions : AutofillOptions := ⟨true, 0, 0⟩

/-- Witness for `buyWithSol_order_spec`: at a concrete no-tip build the
returned list is exactly [ATA creations, wrap pair if needed, swap,
unwrap if base is WSOL] with nothing after the unwrap section. -/
theorem buyWithSol_order_spec_witness :
    pumpAmmBuyWithSol decodeTokenAmount sampleDerive sampleState sampleAccts 10000000 100
        950000 sampleOptions =
      (ensureATABatchWithBalances decodeTokenAmount sampleDerive sampleState
          (ammBuyAtaRequests sampleAccts)).2.instructions ++
        (if isWSOL sampleAccts.quoteMint sampleAccts.quoteTokenProgram ∧
            mapGetD (ensureATABatchWithBalances decodeTokenAmount sampleDerive sampleState
                (ammBuyAtaRequests sampleAccts)).2.balances sampleAccts.userQuoteTokenAccount
              < 10000000 then
          [.transfer
              (10000000 -
                mapGetD (ensureATABatchWithBalances decodeTokenAmount sampleDerive sampleState
                    (ammBuyAtaRequests sampleAccts)).2.balances
                  sampleAccts.userQuoteTokenAccount)
              sampleAccts.user sampleAccts.userQuoteTokenAccount,
            .syncNative sampleAccts.userQuoteTokenAccount]
        else []) ++
        [.buyExactQuoteIn 10000000 (applySlippage 950000 100) sampleOptions.trackVolume] ++
        (if sampleAccts.baseMint = wsolMint then
          [.closeAccount sampleAccts.userBaseTokenAccount sampleAccts.user sampleAccts.user
            sampleAccts.baseTokenProgram]
        else []) :=
  (buyWithSol_order_spec decodeTokenAmount sampleDerive sampleState sampleAccts 10000000 100
    950000 sampleOptions).2.2.2 rfl

/-- C2: in the assemblies of `PumpAmmBuyExactQuoteIn` and
`PumpAmmBuyWithSol`, when the quote mint is the native wrapper (WSOL)
under the classic token program and the intended spend is positive: if
the spend exceeds the wrapped balance learned from the batched fetch,
the emitted wrap pair — a transfer followed by sync-native, directly
after the ATA section — transfers exactly the spend minus that balance;
and if the balance covers the spend, no wrap (sync-native) instruction
appears anywhere in the output. -/
theorem wrap_topup_spec (decodeTok : List Nat → Option Nat)
    (deriveATA : PublicKey → PublicKey → PublicKey → PublicKey → PublicKey)
    (s : RpcState) (accts : BuyExactAccounts)
    (quoteLamports minBaseOut slippageBps baseOutSim : Nat) (options : AutofillOptions)
    (hmint : accts.quoteMint = wsolMint)
    (hprog : accts.quoteTokenProgram = tokenProgramID)
    (hpos : 0 < quoteLamports) :
    (mapGetD (ensureATABatchWithBalances decodeTok deriveATA s
          (ammBuyAtaRequests accts)).2.balances accts.userQuoteTokenAccount
        < quoteLamports →
      pumpAmmBuyExactQuoteIn decodeTok deriveATA s accts quoteLamports minBaseOut options =
        (ensureATABatchWithBalances decodeTok deriveATA s
            (ammBuyAtaRequests accts)).2.instructions ++
          [.transfer
              (quoteLamports -
                mapGetD (ensureATABatchWithBalances decodeTok deriveATA s
                    (ammBuyAtaRequests accts)).2.balances accts.userQuoteTokenAccount)
              accts.user accts.userQuoteTokenAccount,
            .syncNative accts.userQuoteTokenAccount] ++
          [.buyExactQuoteIn quoteLamports minBaseOut options.trackVolume] ++
          (if accts.baseMint = wsolMint then
            [.closeAccount accts.userBaseTokenAccount accts.user accts.user
              accts.baseTokenProgram]
          else []) ++
          (if options.jitoTipLamports = 0 then []
           else if options.jitoTipAccount = 0 then []
           else [.transfer options.jitoTipLamports accts.user options.jitoTipAccount]) ∧
      pumpAmmBuyWithSol decodeTok deriveATA s accts quoteLamports slippageBps baseOutSim
          options =
        (ensureATABatchWithBalances decodeTok deriveATA s
            (ammBuyAtaRequests accts)).2.instructions ++
          [.transfer
              (quoteLamports -
                mapGetD (ensureATABatchWithBalances decodeTok deriveATA s
                    (ammBuyAtaRequests accts)).2.balances accts.userQuoteTokenAccount)
              accts.user accts.userQuoteTokenAccount,
            .syncNative accts.userQuoteTokenAccount] ++
          [.buyExactQuoteIn quoteLamports (applySlippage baseOutSim slippageBps)
            options.trackVolume] ++
          (if accts.baseMint = wsolMint then
            [.closeAccount accts.userBaseTokenAccount accts.user accts.user
              accts.baseTokenProgram]
          else []) ++
          (if options.jitoTipLamports = 0 then []
           else if options.jitoTipAccount = 0 then []
           else [.transfer options.jitoTipLamports accts.user options.jitoTipAccount])) ∧
    (quoteLamports ≤
        mapGetD (ensureATABatchWithBalances decodeTok deriveATA s
            (ammBuyAtaRequests accts)).2.balances accts.userQuoteTokenAccount →
      (pumpAmmBuyExactQuoteIn decodeTok deriveATA s accts quoteLamports minBaseOut
          options).countP isSyncNativeIx = 0 ∧
      (pumpAmmBuyWithSol decodeTok deriveATA s accts quoteLamports slippageBps baseOutSim
          options).countP isSyncNativeIx = 0) := by
  have hws : isWSOL accts.quoteMint accts.quoteTokenProgram = true := by
    simp [isWSOL, hmint, hprog]
  have hsync0 : List.countP isSyncNativeIx (ensureATABatchWithBalances decodeTok deriveATA s
      (ammBuyAtaRequests accts)).2.instructions = 0 := by
    rw [List.countP_eq_zero]
    intro ix hix
    have hcr := ensureATA_all_create decodeTok deriveATA s (ammBuyAtaRequests accts) ix hix
    cases ix <;> simp_all [isCreateIx, isSyncNativeIx]
  constructor
  · intro hlt
    constructor
    · rw [pumpAmmBuyExactQuoteIn_decomp]
      rw [if_pos (And.intro (And.intro hws hpos) hlt)]
    · rw [pumpAmmBuyWithSol_decomp]
      rw [if_pos (And.intro hws hlt)]
  · intro hge
    have hltf : ¬ (mapGetD (ensureATABatchWithBalances decodeTok deriveATA s
        (ammBuyAtaRequests accts)).2.balances accts.userQuoteTokenAccount
          < quoteLamports) := by omega
    constructor
    · rw [pumpAmmBuyExactQuoteIn_decomp]
      simp only [List.countP_append, hsync0]
      simp [hltf, apply_ite (List.countP isSyncNativeIx), List.countP_cons,
        List.countP_nil, isSyncNativeIx]
    · rw [pumpAmmBuyWithSol_decomp]
      simp only [List.countP_append, hsync0]
      simp [hltf, apply_ite (List.countP isSyncNativeIx), List.countP_cons,
        List.countP_nil, isSyncNativeIx]

/-- Chain for the C2 witness: the derived user quote ATA holds a wrapped
balance of 50 under the classic token program. -/
def c2State : RpcState :=
  ⟨fun a => if a = sampleQuoteATA then some ⟨tokenProgramID, tokenAccountData 50⟩ else none, 0⟩

/-- Witness for `wrap_topup_spec`: with an existing wrapped balance of 50
covering the intended spend of 10, neither buy helper emits a wrap
instruction. -/
theorem wrap_topup_spec_witness :
    (pumpAmmBuyExactQuoteIn decodeTokenAmount sampleDerive c2State sampleAccts 10 1
        sampleOptions).countP isSyncNativeIx = 0 ∧
    (pumpAmmBuyWithSol decodeTokenAmount sampleDerive c2State sampleAccts 10 100 950
        sampleOptions).countP isSyncNativeIx = 0 :=
  (wrap_topup_spec decodeTokenAmount sampleDerive c2State sampleAccts 10 1 100 950
    sampleOptions rfl rfl (by decide)).2 (by decide)

/-- The part of a `SimulateTransaction` response the delta extraction
reads: whether the simulated execution failed, and the post-execution
data of the single requested account (`none` when the node returned no
entry for it). -/
structure SimResponse where
  execErr : Bool
  postData : Option (List Nat)
deriving DecidableEq

/-- The failure modes of the simulation delta helpers, one per error
`return` in the Go functions. -/
inductive SimError where
  | noInstructions
  | execFailed
  | missingAccountData
  | emptyData
  | decodeFailed
  | balanceDecreased (preV postV : Nat)
deriving DecidableEq

/-- Shallow embedding of `simulateBaseOut` (pkg/autofill/pump_amm.go):
given the simulation response for the user base ATA and the
pre-simulation balance captured in the earlier batched fetch, extract
the balance delta; a post-simulation balance strictly below the initial
one is the hard error "base token decreased". -/
def simulateBaseOut (decodeTok : List Nat → Option Nat) (resp : SimResponse)
    (initialBase : Nat) (numInstrs : Nat) : Except SimError Nat :=
  if numInstrs = 0 then .error .noInstructions
  else if resp.execErr then .error .execFailed
  else
    match resp.postData with
    | none => .error .missingAccountData
    | some data =>
      if data.isEmpty then .error .emptyData
      else
        match decodeTok data with
        | none => .error .decodeFailed
        | some amount =>
          if amount < initialBase then .error (.balanceDecreased initialBase amount)
          else .ok (amount - initialBase)

/-- Shallow embedding of `simulateAmmQuoteOut` (pkg/autofill/pump_amm.go)
from the point where the simulation response for the user quote ATA is
in hand (`pre` is the balance fetched beforehand): a post balance
strictly below `pre` is the hard error "quote decreased". -/
def simulateAmmQuoteOut (decodeTok : List Nat → Option Nat) (resp : SimResponse)
    (pre : Nat) : Except SimError Nat :=
  if resp.execErr then .error .execFailed
  else
    match resp.postData with
    | none => .error .missingAccountData
    | some data =>
      if data.isEmpty then .error .emptyData
      else
        match decodeTok data with
        | none => .error .decodeFailed
        | some amount =>
          if amount < pre then .error (.balanceDecreased pre amount)
          else .ok (amount - pre)

/-- Shallow embedding of `simulateQuoteConsumedNoSign`
(pkg/autofill/pump_amm.go): the consumed quote is
`preBalance - postBalance`; when the post balance exceeds the captured
pre balance the function returns 0 with no error ("shouldn't happen"
comment in the source). -/
def simulateQuoteConsumedNoSign (decodeTok : List Nat → Option Nat) (resp : SimResponse)
    (preBalance : Nat) : Except SimError Nat :=
  if resp.execErr then .error .execFailed
  else
    match resp.postData with
    | none => .error .missingAccountData
    | some data =>
      if data.isEmpty then .error .emptyData
      else
        match decodeTok data with
        | none => .error .decodeFailed
        | some amount =>
          if preBalance < amount then .ok 0
          else .ok (preBalance - amount)

/-- C7 (amended): the output-delta extraction paths (`simulateBaseOut`
and `simulateAmmQuoteOut`) surface a post-simulation balance strictly
below the captured pre-simulation balance as a hard invariant-violation
error and never return a successful quote there; the consumed-quote path
(`simulateQuoteConsumedNoSign`) instead treats post < pre as the normal
case, returning the consumed amount `pre - post` successfully, and
silently returns 0 for the anomalous post > pre.  (The claim that every
balance-delta extraction path errors on post < pre is falsified by the
counterexample below.) -/
theorem sim_delta_spec (decodeTok : List Nat → Option Nat) (data : List Nat)
    (preV postV n : Nat) (hn : 0 < n) (hdata : data ≠ [])
    (hdec : decodeTok data = some postV) (hlt : postV < preV) :
    simulateBaseOut decodeTok ⟨false, some data⟩ preV n =
      .error (.balanceDecreased preV postV) ∧
    simulateAmmQuoteOut decodeTok ⟨false, some data⟩ preV =
      .error (.balanceDecreased preV postV) ∧
    simulateQuoteConsumedNoSign decodeTok ⟨false, some data⟩ preV = .ok (preV - postV) := by
  have hemp : data.isEmpty = false := by
    cases hd : data with
    | nil => exact absurd hd hdata
    | cons x xs => rfl
  have hn0 : n ≠ 0 := by omega
  have hnpre : ¬ preV < postV := by omega
  refine ⟨?_, ?_, ?_⟩
  · simp [simulateBaseOut, hn0, hemp, hdec, hlt]
  · simp [simulateAmmQuoteOut, hemp, hdec, hlt]
  · simp [simulateQuoteConsumedNoSign, hemp, hdec, hnpre]

/-- C7 counterexample: in `simulateQuoteConsumedNoSign` the tracked
quote account's post-simulation balance 3 is strictly below the captured
pre-simulation balance 10, yet the function returns the successful quote
`.ok 7` instead of a hard invariant-violation error — the claim does not
hold on every balance-delta extraction path. -/
theorem sim_consumed_negative_delta_counterex :
    decodeTokenAmount (tokenAccountData 3) = some 3 ∧ (3 : Nat) < 10 ∧
    simulateQuoteConsumedNoSign decodeTokenAmount ⟨false, some (tokenAccountData 3)⟩ 10 =
      .ok 7 := by
  refine ⟨by decide, by decide, ?_⟩
  rfl

/-- Witness for `sim_delta_spec` at concrete inputs: pre 10, post 3. -/
theorem sim_delta_spec_witness :
    simulateBaseOut decodeTokenAmount ⟨false, some (tokenAccountData 3)⟩ 10 2 =
      .error (.balanceDecreased 10 3) ∧
    simulateAmmQuoteOut decodeTokenAmount ⟨false, some (tokenAccountData 3)⟩ 10 =
      .error (.balanceDecreased 10 3) ∧
    simulateQuoteConsumedNoSign decodeTokenAmount ⟨false, some (tokenAccountData 3)⟩ 10 =
      .ok (10 - 3) :=
  sim_delta_spec decodeTokenAmount (tokenAccountData 3) 10 3 2 (by decide) (by decide)
    (by decide) (by decide)

/-- Outcome of one invocation of the wrapped remote function: success,
an ordinary (retryable) failure, or a cancellation-type error
(`context.Canceled` / `context.DeadlineExceeded`). -/
inductive CallOutcome where
  | ok
  | errRetryable
  | errCancel
deriving DecidableEq

/-- `retryable` (rpc client): cancellation errors are never retried;
every other error (and nil) counts as retryable. -/
def retryable : CallOutcome → Bool
  | .ok => true
  | .errRetryable => true
  | .errCancel => false

/-- The retry-relevant RPC client configuration; `maxAttempts` is a Go
`int` and is clamped to at least 1 inside `call`. -/
structure RetryConfig where
  enabled : Bool
  maxAttempts : Int
deriving DecidableEq

/-- Result of `Client.call`: success, the unwrapped error of the single
invocation made with retry disabled, or the wrapped
"op failed after N attempts" error carrying the operation name and the
configured attempt count. -/
inductive CallResult where
  | success
  | plainError (e : CallOutcome)
  | wrapped (op : String) (attempts : Nat) (last : CallOutcome)
deriving DecidableEq

/-- The retry loop of `Client.call` (rpc client), with `fn i` the
outcome of the i-th invocation (0-based) and `remaining` the loop
iterations left (initially the clamped attempt count; `remaining = 0`
inside the loop body marks the last attempt, mirroring
`i == attempts-1`).  Backoff sleeps are modelled as completing — the
caller's context is not cancelled during the wait.  Returns the number
of invocations performed, and `none` on success or the last error. -/
def callLoop (fn : Nat → CallOutcome) : Nat → Nat → Nat × Option CallOutcome
  | _, 0 => (0, none)
  | i, remaining + 1 =>
    if fn i = .ok then (1, none)
    else if retryable (fn i) = false ∨ remaining = 0 then (1, some (fn i))
    else ((callLoop fn (i + 1) remaining).1 + 1, (callLoop fn (i + 1) remaining).2)

/-- Shallow embedding of `Client.call` (rpc client) under an admitting
rate limiter and a live per-call deadline: with retry disabled the
function is invoked once and its error returned unwrapped; with retry
enabled the configured attempt count is clamped to at least 1, the loop
runs, and a final error is wrapped with the operation name and the
attempt count. -/
def call (cfg : RetryConfig) (op : String) (fn : Nat → CallOutcome) : Nat × CallResult :=
  if cfg.enabled = false then
    match fn 0 with
    | .ok => (1, .success)
    | e => (1, .plainError e)
  else
    let attempts := if cfg.maxAttempts ≤ 0 then 1 else cfg.maxAttempts.toNat
    match (callLoop fn 0 attempts).2 with
    | none => ((callLoop fn 0 attempts).1, .success)
    | some e => ((callLoop fn 0 attempts).1, .wrapped op attempts e)

theorem callLoop_success (fn : Nat → CallOutcome) :
    ∀ (n i remaining : Nat), n + 1 ≤ remaining →
      (∀ j, j < n → fn (i + j) = .errRetryable) → fn (i + n) = .ok →
      callLoop fn i remaining = (n + 1, none) := by
  intro n
  induction n with
  | zero =>
    intro i remaining h1 _ hok
    rw [Nat.add_zero] at hok
    match remaining, h1 with
    | remaining + 1, _ =>
      simp only [callLoop]
      simp [hok]
  | succ n ih =>
    intro i remaining h1 hfail hok
    match remaining, h1 with
    | remaining + 1, h1 =>
      have hr0 : fn i = .errRetryable := by
        have h := hfail 0 (by omega)
        rw [Nat.add_zero] at h
        exact h
      have hrem : remaining ≠ 0 := by omega
      have ihres : callLoop fn (i + 1) remaining = (n + 1, none) := by
        refine ih (i + 1) remaining (by omega) ?_ ?_
        · intro j hj
          have h := hfail (j + 1) (by omega)
          have e : i + (j + 1) = i + 1 + j := by omega
          rw [e] at h
          exact h
        · have e : i + (n + 1) = i + 1 + n := by omega
          rw [e] at hok
          exact hok
      simp only [callLoop]
      rw [hr0]
      rw [if_neg (by simp)]
      rw [if_neg (by simp [retryable, hrem])]
      rw [ihres]

theorem callLoop_allfail (fn : Nat → CallOutcome) :
    ∀ (remaining i : Nat), 1 ≤ remaining →
      (∀ j, j < remaining → fn (i + j) = .errRetryable) →
      callLoop fn i remaining = (remaining, some .errRetryable) := by
  intro remaining
  induction remaining with
  | zero => intro i h; omega
  | succ remaining ih =>
    intro i _ hfail
    have hr0 : fn i = .errRetryable := by
      have h := hfail 0 (by omega)
      rw [Nat.add_zero] at h
      exact h
    by_cases hrem : remaining = 0
    · subst hrem
      simp only [callLoop]
      rw [hr0]
      simp [retryable]
    · have ihres : callLoop fn (i + 1) remaining = (remaining, some .errRetryable) := by
        refine ih (i + 1) (by omega) ?_
        intro j hj
        have h := hfail (j + 1) (by omega)
        have e : i + (j + 1) = i + 1 + j := by omega
        rw [e] at h
        exact h
      simp only [callLoop]
      rw [hr0]
      rw [if_neg (by simp)]
      rw [if_neg (by simp [retryable, hrem])]
      rw [ihres]

theorem callLoop_cancel (fn : Nat → CallOutcome) (i remaining : Nat)
    (h : fn i = .errCancel) :
    callLoop fn i (remaining + 1) = (1, some .errCancel) := by
  simp only [callLoop]
  rw [h]
  simp [retryable]

theorem call_enabled (cfg : RetryConfig) (op : String) (fn : Nat → CallOutcome)
    (M : Nat) (hM : 0 < M) (henabled : cfg.enabled = true)
    (hmax : cfg.maxAttempts = (M : Int)) :
    call cfg op fn =
      match (callLoop fn 0 M).2 with
      | none => ((callLoop fn 0 M).1, .success)
      | some e => ((callLoop fn 0 M).1, .wrapped op M e) := by
  have hne : ¬ ((M : Int) ≤ 0) := by omega
  have hatt : (if cfg.maxAttempts ≤ 0 then 1 else cfg.maxAttempts.toNat) = M := by
    rw [hmax, if_neg hne]
    simp
  unfold call
  rw [if_neg (by simp [henabled])]
  simp only [hatt]

/-- C3: with retry enabled and `maxAttempts = M ≥ 1`: a function failing
with retryable errors on its first N-1 invocations and succeeding on the
Nth is invoked exactly N times and `call` returns success whenever
N ≤ M; a function failing with retryable errors on all M attempts is
invoked exactly M times and `call` returns the wrapped error naming the
operation and the attempt count; and a function whose invocation fails
with a cancellation-type error is invoked exactly once and never
retried. -/
theorem call_retry_spec (cfg : RetryConfig) (op : String) (M : Nat) (hM : 0 < M)
    (henabled : cfg.enabled = true) (hmax : cfg.maxAttempts = (M : Int)) :
    (∀ (fn : Nat → CallOutcome) (N : Nat), 1 ≤ N → N ≤ M →
        (∀ j, j < N - 1 → fn j = .errRetryable) → fn (N - 1) = .ok →
        call cfg op fn = (N, .success)) ∧
    (∀ fn : Nat → CallOutcome, (∀ j, j < M → fn j = .errRetryable) →
        call cfg op fn = (M, .wrapped op M .errRetryable)) ∧
    (∀ fn : Nat → CallOutcome, fn 0 = .errCancel →
        call cfg op fn = (1, .wrapped op M .errCancel)) := by
  refine ⟨?_, ?_, ?_⟩
  · intro fn N h1 h2 hfail hok
    have hloop : callLoop fn 0 M = (N, none) := by
      have h := callLoop_success fn (N - 1) 0 M (by omega)
        (fun j hj => by
          have hf := hfail j hj
          rw [Nat.zero_add]
          exact hf)
        (by rw [Nat.zero_add]; exact hok)
      rw [show N - 1 + 1 = N by omega] at h
      exact h
    rw [call_enabled cfg op fn M hM henabled hmax, hloop]
  · intro fn hfail
    have hloop : callLoop fn 0 M = (M, some .errRetryable) := by
      refine callLoop_allfail fn M 0 (by omega) ?_
      intro j hj
      rw [Nat.zero_add]
      exact hfail j hj
    rw [call_enabled cfg op fn M hM henabled hmax, hloop]
  · intro fn hcancel
    have hloop : callLoop fn 0 M = (1, some .errCancel) := by
      have h := callLoop_cancel fn 0 (M - 1) hcancel
      rw [show M - 1 + 1 = M by omega] at h
      exact h
    rw [call_enabled cfg op fn M hM henabled hmax, hloop]

/-- A function failing once then succeeding. -/
def fnA : Nat → CallOutcome := fun i => if i = 0 then .errRetryable else .ok

/-- A function failing with a retryable error on every invocation. -/
def fnB : Nat → CallOutcome := fun _ => .errRetryable

/-- A function failing with a cancellation error. -/
def fnC : Nat → CallOutcome := fun _ => .errCancel

/-- Retry configuration with three attempts. -/
def retryCfg3 : RetryConfig := ⟨true, 3⟩

/-- Witness for `call_retry_spec` with `maxAttempts = 3`: one retry then
success gives 2 invocations; three retryable failures give the wrapped
error after exactly 3 invocations; a cancellation error gives exactly 1
invocation. -/
theorem call_retry_spec_witness :
    call retryCfg3 "getLatestBlockhash" fnA = (2, .success) ∧
    call retryCfg3 "getLatestBlockhash" fnB =
      (3, .wrapped "getLatestBlockhash" 3 .errRetryable) ∧
    call retryCfg3 "getLatestBlockhash" fnC =
      (1, .wrapped "getLatestBlockhash" 3 .errCancel) := by
  obtain ⟨hA, hB, hC⟩ := call_retry_spec retryCfg3 "getLatestBlockhash" 3 (by decide)
    rfl (by decide)
  refine ⟨?_, ?_, ?_⟩
  · refine hA fnA 2 (by decide) (by decide) ?_ rfl
    intro j hj
    have hj0 : j = 0 := by omega
    subst hj0
    rfl
  · exact hB fnB (fun j hj => rfl)
  · exact hC fnC rfl

/-- A candidate keypair: the secret and the base58 rendering of its
public key (`key.PublicKey().String()`). -/
structure Keypair where
  secret : Nat
  address : String
deriving DecidableEq

/-- Go `strings.ToLower` restricted to ASCII, which covers base58
addresses: lowercase every character. -/
def toLowerStr (s : String) : String := ⟨s.data.map Char.toLower⟩

/-- The `vanity.Options` fields the matching logic reads; the worker
count and timeout configure concurrency and cancellation, which the
sequential model below absorbs into the candidate stream. -/
structure VanityOptions where
  pfx : String
  sfx : String
  caseInsensitive : Bool
deriving DecidableEq

/-- A successful vanity search result (`vanity.Result`; the wall-clock
duration field is not modelled). -/
structure VanityResult where
  keypair : Keypair
  attempts : Nat
deriving DecidableEq

/-- The failure modes of `vanity.Generate`: no pattern supplied, or the
candidate stream exhausted (timeout/cancellation), reporting the
attempts made. -/
inductive VanityError where
  | patternRequired
  | exhausted (attempts : Nat)
deriving DecidableEq

/-- The worker loop of `vanity.Generate`, sequentialized: `stream` is
the interleaved sequence of randomly generated keypairs across workers
(its end models the timeout), and `attempts` the shared atomic counter,
which a worker bumps before checking its candidate.  The
compare-and-swap in the source makes the first matching candidate the
unique winner, which the sequential scan reproduces.  `strings.HasPrefix`
and `strings.HasSuffix` are byte-wise matches of the (already
normalized) patterns. -/
def vanityLoop (p sfx2 : String) (ci : Bool) :
    List Keypair → Nat → Except VanityError VanityResult
  | [], attempts => .error (.exhausted attempts)
  | k :: rest, attempts =>
    if (p = "" ∨ p.data.isPrefixOf (if ci then toLowerStr k.address else k.address).data) ∧
        (sfx2 = "" ∨ sfx2.data.isSuffixOf
          (if ci then toLowerStr k.address else k.address).data) then
      .ok ⟨k, attempts + 1⟩
    else vanityLoop p sfx2 ci rest (attempts + 1)

/-- Shallow embedding of `vanity.Generate` (vanity package): with both
patterns empty the call fails immediately with the configuration error
before examining any candidate (the result does not depend on the
stream); otherwise the patterns are lowercased under case-insensitive
mode and candidates are checked until a match or exhaustion. -/
def vanityGenerate (opts : VanityOptions) (stream : List Keypair) :
    Except VanityError VanityResult :=
  if opts.pfx = "" ∧ opts.sfx = "" then .error .patternRequired
  else
    let p := if opts.caseInsensitive then toLowerStr opts.pfx else opts.pfx
    let sfx2 := if opts.caseInsensitive then toLowerStr opts.sfx else opts.sfx
    vanityLoop p sfx2 opts.caseInsensitive stream 0

theorem vanityLoop_ok (p sfx2 : String) (ci : Bool) :
    ∀ (stream : List Keypair) (a : Nat) (r : VanityResult),
      vanityLoop p sfx2 ci stream a = .ok r →
      (p = "" ∨ p.data.isPrefixOf (if ci then toLowerStr r.keypair.address
          else r.keypair.address).data) ∧
      (sfx2 = "" ∨ sfx2.data.isSuffixOf (if ci then toLowerStr r.keypair.address
          else r.keypair.address).data) ∧
      a + 1 ≤ r.attempts := by
  intro stream
  induction stream with
  | nil =>
    intro a r h
    simp [vanityLoop] at h
  | cons k rest ih =>
    intro a r h
    simp only [vanityLoop] at h
    by_cases hcond :
        (p = "" ∨ p.data.isPrefixOf (if ci then toLowerStr k.address
            else k.address).data = true) ∧
        (sfx2 = "" ∨ sfx2.data.isSuffixOf (if ci then toLowerStr k.address
            else k.address).data = true)
    · rw [if_pos hcond] at h
      injection h with h2
      subst h2
      exact ⟨hcond.1, hcond.2, le_refl _⟩
    · rw [if_neg hcond] at h
      have hr := ih (a + 1) r h
      exact ⟨hr.1, hr.2.1, by have := hr.2.2; omega⟩

/-- C10: `vanity.Generate` with both the prefix and the suffix pattern
empty fails immediately with the configuration error for every candidate
stream — no keypair is generated or examined; and whenever it returns a
successful result, the returned public key's base58 address satisfies
the requested patterns (compared on the lowercased address against the
lowercased patterns under case-insensitive mode) and the reported
attempt count is at least 1. -/
theorem vanity_generate_spec (opts : VanityOptions) (stream : List Keypair) :
    (opts.pfx = "" → opts.sfx = "" →
      vanityGenerate opts stream = .error .patternRequired) ∧
    (∀ r, vanityGenerate opts stream = .ok r →
      ((if opts.caseInsensitive then toLowerStr opts.pfx else opts.pfx) = "" ∨
        (if opts.caseInsensitive then toLowerStr opts.pfx else opts.pfx).data.isPrefixOf
          (if opts.caseInsensitive then toLowerStr r.keypair.address
            else r.keypair.address).data) ∧
      ((if opts.caseInsensitive then toLowerStr opts.sfx else opts.sfx) = "" ∨
        (if opts.caseInsensitive then toLowerStr opts.sfx else opts.sfx).data.isSuffixOf
          (if opts.caseInsensitive then toLowerStr r.keypair.address
            else r.keypair.address).data) ∧
      1 ≤ r.attempts) := by
  constructor
  · intro h1 h2
    simp [vanityGenerate, h1, h2]
  · intro r h
    unfold vanityGenerate at h
    by_cases hpat : opts.pfx = "" ∧ opts.sfx = ""
    · rw [if_pos hpat] at h
      cases h
    · rw [if_neg hpat] at h
      have hr := vanityLoop_ok
        (if opts.caseInsensitive then toLowerStr opts.pfx else opts.pfx)
        (if opts.caseInsensitive then toLowerStr opts.sfx else opts.sfx)
        opts.caseInsensitive stream 0 r h
      exact ⟨hr.1, hr.2.1, by have := hr.2.2; omega⟩

/-- Vanity options with no pattern at all. -/
def vanityOptsEmpty : VanityOptions := ⟨"", "", false⟩

/-- Vanity options asking for the suffix "ab" case-insensitively. -/
def vanityOptsSfx : VanityOptions := ⟨"", "ab", true⟩

/-- A candidate stream whose second candidate matches "ab"
case-insensitively. -/
def vanityStream : List Keypair := [⟨1, "Xyz"⟩, ⟨2, "QAB"⟩]

/-- Witness for `vanity_generate_spec`: the empty-pattern call fails
with the configuration error, and the successful case-insensitive search
for suffix "ab" returns the matching address "QAB" on attempt 2. -/
theorem vanity_generate_spec_witness :
    vanityGenerate vanityOptsEmpty vanityStream = .error .patternRequired ∧
    (((if vanityOptsSfx.caseInsensitive then toLowerStr vanityOptsSfx.pfx
          else vanityOptsSfx.pfx) = "" ∨
        (if vanityOptsSfx.caseInsensitive then toLowerStr vanityOptsSfx.pfx
          else vanityOptsSfx.pfx).data.isPrefixOf
          (if vanityOptsSfx.caseInsensitive
            then toLowerStr (⟨⟨2, "QAB"⟩, 2⟩ : VanityResult).keypair.address
            else (⟨⟨2, "QAB"⟩, 2⟩ : VanityResult).keypair.address).data) ∧
      ((if vanityOptsSfx.caseInsensitive then toLowerStr vanityOptsSfx.sfx
          else vanityOptsSfx.sfx) = "" ∨
        (if vanityOptsSfx.caseInsensitive then toLowerStr vanityOptsSfx.sfx
          else vanityOptsSfx.sfx).data.isSuffixOf
          (if vanityOptsSfx.caseInsensitive
            then toLowerStr (⟨⟨2, "QAB"⟩, 2⟩ : VanityResult).keypair.address
            else (⟨⟨2, "QAB"⟩, 2⟩ : VanityResult).keypair.address).data) ∧
      1 ≤ (⟨⟨2, "QAB"⟩, 2⟩ : VanityResult).attempts) := by
  constructor
  · exact (vanity_generate_spec vanityOptsEmpty vanityStream).1 rfl rfl
  · exact (vanity_generate_spec vanityOptsSfx vanityStream).2 ⟨⟨2, "QAB"⟩, 2⟩ (by rfl)
